import Mathlib

/-!
Verification of the GoRODS client facade and data-object model.

The repository provides a Go client for an iRODS data grid.  The facade
(`Client.OpenConnection`, `New`) is embedded directly from `client.go`.
Remote behaviour (whether a connection, collection open, close, or
disconnect succeeds) is abstracted into a `RemoteEnv` record of outcomes,
and each facade run additionally yields the trace of calls it performed,
so that teardown and ordering properties can be stated.
-/

namespace GoRods

/-- Error kinds from the error taxonomy of the library. -/
inductive ErrorKind
  | Fatal
  | NotFound
  | PermissionDenied
  | DuplicateAVU
  | OutOfRange
  | IoError
  | AuthFailure
  deriving DecidableEq, Repr

/-- A Go error value: a kind together with its message. -/
structure GoError where
  kind : ErrorKind
  msg : String
  deriving DecidableEq, Repr

/-- `newError(kind, msg)` from the library. -/
def newError (k : ErrorKind) (m : String) : GoError := ⟨k, m⟩

/-- The apostrophe character, built by code point to keep source text faithful. -/
def aposChar : Char := Char.ofNat 39

/-- The literal format text used by `Client.OpenConnection` in `client.go`:
`fmt.Sprintf("Can't open new connection: %v", err)` produces this text followed
by the formatted inner error. -/
def cantOpenMsg : String := "Can" ++ aposChar.toString ++ "t open new connection: "

/-- `fmt.Sprintf("%v", err)` on an error value prints its message. -/
def formatErr (e : GoError) : String := e.msg

/-- Connection options stored by the `Client` struct. -/
structure ConnectionOptions where
  Host : String
  Port : Nat
  Zone : String
  Username : String
  Password : String
  deriving DecidableEq, Repr

/-- Options passed to `Connection.Collection`. -/
structure CollectionOptions where
  Path : String
  Recursive : Bool
  GetRepls : Bool
  deriving DecidableEq, Repr

/-- The `Client` struct of `client.go`: stored options and the stored
connection error. -/
structure Client where
  Options : ConnectionOptions
  ConnectErr : Option GoError
  deriving DecidableEq, Repr

deriving instance DecidableEq for Except

/-- Outcomes of the remote calls that `Client.OpenConnection` performs, with
one field per call site: `NewConnection`, `con.Collection`, `col.Close`,
`con.Disconnect`.  `none` means the close/disconnect call succeeded. -/
structure RemoteEnv where
  connectResult : Except GoError Unit
  collectionResult : Except GoError Unit
  closeResult : Option GoError
  disconnectResult : Option GoError
  deriving DecidableEq, Repr

/-- Observable calls made by `Client.OpenConnection`, in order. -/
inductive Event
  | newConn
  | openCol
  | handlerCall
  | closeCol
  | disconnect
  deriving DecidableEq, Repr

/-- Embedding of `Client.OpenConnection` (`client.go` lines 30-55).  The Go
handler has type `func(*Collection, *Connection)`: it returns nothing and
cannot alter control flow, so its invocation is recorded as a trace event.
The result is the returned error (`none` for Go `nil`) paired with the trace
of calls performed. -/
def Client.OpenConnection (cli : Client) (opts : CollectionOptions)
    (env : RemoteEnv) : Option GoError × List Event :=
  match cli.ConnectErr with
  | none =>
    match env.connectResult with
    | Except.ok _ =>
      match env.collectionResult with
      | Except.error colEr =>
          (some (newError ErrorKind.Fatal (cantOpenMsg ++ formatErr colEr)),
           [Event.newConn, Event.openCol])
      | Except.ok _ =>
          match env.closeResult with
          | some er =>
              (some er,
               [Event.newConn, Event.openCol, Event.handlerCall, Event.closeCol])
          | none =>
            match env.disconnectResult with
            | some er =>
                (some er,
                 [Event.newConn, Event.openCol, Event.handlerCall,
                  Event.closeCol, Event.disconnect])
            | none =>
                (none,
                 [Event.newConn, Event.openCol, Event.handlerCall,
                  Event.closeCol, Event.disconnect])
    | Except.error err =>
        (some (newError ErrorKind.Fatal (cantOpenMsg ++ formatErr err)),
         [Event.newConn])
  | some ce =>
      (some (newError ErrorKind.Fatal (cantOpenMsg ++ formatErr ce)), [])

/-- Embedding of `New` (`client.go` lines 62-73): it builds a client holding
the options, test-connects, and on failure returns nil with the error (the
client value is discarded), otherwise the client with no stored error. -/
def New (opts : ConnectionOptions) (connectResult : Except GoError Unit) :
    Except GoError Client :=
  match connectResult with
  | Except.error err => Except.error err
  | Except.ok _ => Except.ok ⟨opts, none⟩

/-- `a` occurs strictly before `b` in the list `l`. -/
def IsBefore (a b : Event) (l : List Event) : Prop :=
  ∃ p q r, l = p ++ a :: (q ++ b :: r)

/-! Concrete values used to exercise the facade. -/

/-- Sample connection options (from the usage examples). -/
def sampleOpts : ConnectionOptions :=
  ⟨"localhost", 1247, "tempZone", "rods", "password"⟩

/-- Sample collection options. -/
def sampleColOpts : CollectionOptions := ⟨"/tempZone/home/rods", false, false⟩

/-- A client whose test connection succeeded. -/
def cliOk : Client := ⟨sampleOpts, none⟩

/-- Remote outcomes in which every call succeeds. -/
def envAllOk : RemoteEnv := ⟨Except.ok (), Except.ok (), none, none⟩

/-- Remote outcomes in which opening the collection fails with `NotFound`. -/
def envColFail : RemoteEnv :=
  ⟨Except.ok (), Except.error ⟨ErrorKind.NotFound, "collection does not exist"⟩,
   none, none⟩

/-- Remote outcomes in which `col.Close` fails. -/
def envCloseFail : RemoteEnv :=
  ⟨Except.ok (), Except.ok (), some ⟨ErrorKind.IoError, "close failed"⟩, none⟩

/-- C9: `New(opts)` returns either a client with `ConnectErr = none` together
with no error, or no client together with an error; consequently every client
obtained from `New` has `ConnectErr = none`, so `OpenConnection` always
attempts `NewConnection` — the final branch reporting `cli.ConnectErr` (the
unique branch whose call trace is empty) is unreachable. -/
theorem New_clients_never_hit_connectErr_branch (opts : ConnectionOptions)
    (copts : CollectionOptions) (r : Except GoError Unit) (env : RemoteEnv) :
    (∃ e, New opts r = Except.error e) ∨
    (∃ cli, New opts r = Except.ok cli ∧ cli.ConnectErr = none ∧
      Event.newConn ∈ (cli.OpenConnection copts env).2 ∧
      (cli.OpenConnection copts env).2 ≠ []) := by
  cases r with
  | error e => exact Or.inl ⟨e, rfl⟩
  | ok u =>
    refine Or.inr ⟨⟨opts, none⟩, rfl, rfl, ?_⟩
    obtain ⟨cr, colr, clr, dr⟩ := env
    cases cr <;> cases colr <;> cases clr <;> cases dr <;>
      simp [Client.OpenConnection]

/-- C10: when the stored connect error is absent and both `NewConnection` and
`con.Collection` succeed, the handler is invoked exactly once, `col.Close` is
called after the handler and before `con.Disconnect` (whenever the latter is
called), and `OpenConnection` returns `nil` only when both teardown calls
succeed. -/
theorem openConnection_success_path (cli : Client) (opts : CollectionOptions)
    (env : RemoteEnv) (h1 : cli.ConnectErr = none)
    (h2 : env.connectResult = Except.ok ())
    (h3 : env.collectionResult = Except.ok ()) :
    (cli.OpenConnection opts env).2.count Event.handlerCall = 1 ∧
    IsBefore Event.handlerCall Event.closeCol (cli.OpenConnection opts env).2 ∧
    (Event.disconnect ∈ (cli.OpenConnection opts env).2 →
      IsBefore Event.closeCol Event.disconnect (cli.OpenConnection opts env).2) ∧
    ((cli.OpenConnection opts env).1 = none →
      env.closeResult = none ∧ env.disconnectResult = none) := by
  obtain ⟨cr, colr, clr, dr⟩ := env
  simp only at h2 h3
  subst h2; subst h3
  cases clr with
  | some er =>
    refine ⟨by simp [Client.OpenConnection, h1], ?_, ?_, ?_⟩
    · exact ⟨[Event.newConn, Event.openCol], [], [], by
        simp [Client.OpenConnection, h1]⟩
    · intro hd
      simp [Client.OpenConnection, h1] at hd
    · intro hres
      simp [Client.OpenConnection, h1] at hres
  | none =>
    cases dr with
    | some er =>
      refine ⟨by simp [Client.OpenConnection, h1], ?_, ?_, ?_⟩
      · exact ⟨[Event.newConn, Event.openCol], [], [Event.disconnect], by
          simp [Client.OpenConnection, h1]⟩
      · intro _
        exact ⟨[Event.newConn, Event.openCol, Event.handlerCall], [], [], by
          simp [Client.OpenConnection, h1]⟩
      · intro hres
        simp [Client.OpenConnection, h1] at hres
    | none =>
      refine ⟨by simp [Client.OpenConnection, h1], ?_, ?_, ?_⟩
      · exact ⟨[Event.newConn, Event.openCol], [], [Event.disconnect], by
          simp [Client.OpenConnection, h1]⟩
      · intro _
        exact ⟨[Event.newConn, Event.openCol, Event.handlerCall], [], [], by
          simp [Client.OpenConnection, h1]⟩
      · intro _
        exact ⟨rfl, rfl⟩

/-- Witness for C10 at concrete inputs where every remote call succeeds. -/
theorem openConnection_success_path_witness :
    (cliOk.ConnectErr = none ∧ envAllOk.connectResult = Except.ok () ∧
     envAllOk.collectionResult = Except.ok ()) ∧
    ((cliOk.OpenConnection sampleColOpts envAllOk).2.count Event.handlerCall = 1 ∧
     IsBefore Event.handlerCall Event.closeCol
       (cliOk.OpenConnection sampleColOpts envAllOk).2 ∧
     (Event.disconnect ∈ (cliOk.OpenConnection sampleColOpts envAllOk).2 →
       IsBefore Event.closeCol Event.disconnect
         (cliOk.OpenConnection sampleColOpts envAllOk).2) ∧
     ((cliOk.OpenConnection sampleColOpts envAllOk).1 = none →
       envAllOk.closeResult = none ∧ envAllOk.disconnectResult = none)) :=
  ⟨⟨rfl, rfl, rfl⟩,
   openConnection_success_path cliOk sampleColOpts envAllOk rfl rfl rfl⟩

/-- C1 counterexample: when `con.Collection` fails, `OpenConnection` returns an
error after having opened a fresh connection, yet `con.Disconnect` is never
called — the Session is not torn down on this exit path. -/
theorem openConnection_no_disconnect_on_colFail :
    (cliOk.OpenConnection sampleColOpts envColFail).1.isSome = true ∧
    Event.newConn ∈ (cliOk.OpenConnection sampleColOpts envColFail).2 ∧
    Event.disconnect ∉ (cliOk.OpenConnection sampleColOpts envColFail).2 := by
  decide

/-- C1 (amended): teardown is guaranteed only on the success path — the
Collection is closed iff `con.Collection` succeeded, and the Session is
disconnected iff additionally `col.Close` succeeded; when the Collection open
fails, or `col.Close` fails, the error is returned without disconnecting. -/
theorem openConnection_teardown_iff (cli : Client) (opts : CollectionOptions)
    (env : RemoteEnv) (h1 : cli.ConnectErr = none)
    (h2 : env.connectResult = Except.ok ()) :
    (Event.closeCol ∈ (cli.OpenConnection opts env).2 ↔
      env.collectionResult = Except.ok ()) ∧
    (Event.disconnect ∈ (cli.OpenConnection opts env).2 ↔
      (env.collectionResult = Except.ok () ∧ env.closeResult = none)) := by
  obtain ⟨cr, colr, clr, dr⟩ := env
  simp only at h2
  subst h2
  cases colr with
  | error e => cases clr <;> cases dr <;> simp [Client.OpenConnection, h1]
  | ok u => cases u; cases clr <;> cases dr <;> simp [Client.OpenConnection, h1]

/-- Witness for C1 (amended) at inputs where `col.Close` fails: the Collection
was closed but the Session is not disconnected. -/
theorem openConnection_teardown_iff_witness :
    (cliOk.ConnectErr = none ∧ envCloseFail.connectResult = Except.ok ()) ∧
    ((Event.closeCol ∈ (cliOk.OpenConnection sampleColOpts envCloseFail).2 ↔
       envCloseFail.collectionResult = Except.ok ()) ∧
     (Event.disconnect ∈ (cliOk.OpenConnection sampleColOpts envCloseFail).2 ↔
       (envCloseFail.collectionResult = Except.ok () ∧
        envCloseFail.closeResult = none))) :=
  ⟨⟨rfl, rfl⟩, openConnection_teardown_iff cliOk sampleColOpts envCloseFail rfl rfl⟩

/-- C2 counterexample: a `NotFound` failure of `con.Collection` is returned by
`OpenConnection` as a freshly built `Fatal` error, not as the original
`NotFound` error kind. -/
theorem openConnection_replaces_col_error_kind :
    envColFail.collectionResult =
      Except.error ⟨ErrorKind.NotFound, "collection does not exist"⟩ ∧
    Option.map GoError.kind (cliOk.OpenConnection sampleColOpts envColFail).1 =
      some ErrorKind.Fatal ∧
    Option.map GoError.kind (cliOk.OpenConnection sampleColOpts envColFail).1 ≠
      some ErrorKind.NotFound := by
  decide

/-- C2 (amended): the Collection-open failure is not silently swallowed —
`OpenConnection` returns a non-nil error — but it is wrapped into a new
`Fatal` error whose message is the source format text followed by the
original error message, rather than propagated with its original kind. -/
theorem openConnection_colError_wrapped (cli : Client) (opts : CollectionOptions)
    (env : RemoteEnv) (e : GoError) (h1 : cli.ConnectErr = none)
    (h2 : env.connectResult = Except.ok ())
    (h3 : env.collectionResult = Except.error e) :
    (cli.OpenConnection opts env).1 =
      some (newError ErrorKind.Fatal (cantOpenMsg ++ formatErr e)) := by
  obtain ⟨cr, colr, clr, dr⟩ := env
  simp only at h2 h3
  subst h2; subst h3
  simp [Client.OpenConnection, h1]

/-- Witness for C2 (amended) at the concrete `NotFound` collection failure. -/
theorem openConnection_colError_wrapped_witness :
    (cliOk.ConnectErr = none ∧ envColFail.connectResult = Except.ok () ∧
     envColFail.collectionResult =
       Except.error ⟨ErrorKind.NotFound, "collection does not exist"⟩) ∧
    (cliOk.OpenConnection sampleColOpts envColFail).1 =
      some (newError ErrorKind.Fatal
        (cantOpenMsg ++ formatErr ⟨ErrorKind.NotFound, "collection does not exist"⟩)) :=
  ⟨⟨rfl, rfl, rfl⟩,
   openConnection_colError_wrapped cliOk sampleColOpts envColFail
     ⟨ErrorKind.NotFound, "collection does not exist"⟩ rfl rfl rfl⟩

/-! Fresh-connection model for the facade open operations.

`Client.OpenConnection` (in `client.go`) calls `NewConnection(cli.Options)`
each time it runs.  `Client.OpenDataObject` and `Client.OpenCollection` are
not under `src/`; the usage documentation states that every call to any of
the three facade functions creates a new network connection with the stored
options.  Connection allocation is modelled as a world holding the next
fresh connection identifier. -/

/-- A live connection: its identity and the options it was created with. -/
structure Connection where
  id : Nat
  opts : ConnectionOptions
  deriving DecidableEq, Repr

/-- Allocation state: the next fresh connection identifier. -/
structure World where
  nextConnId : Nat
  deriving DecidableEq, Repr

/-- Modelled from the spec: `NewConnection(opts)` establishes a brand-new
physical connection — allocation returns a connection distinct from every
previously allocated one, carrying the given options. -/
def NewConnectionW (opts : ConnectionOptions) (w : World) : Connection × World :=
  (⟨w.nextConnId, opts⟩, ⟨w.nextConnId + 1⟩)

/-- The three facade entry points. -/
inductive FacadeOp
  | openDataObject
  | openCollection
  | openConnection
  deriving DecidableEq, Repr

/-- Modelled from the spec: `Client.OpenDataObject` and `Client.OpenCollection`
are absent from `src/`; per the documentation each of the three facade calls
creates a new connection using the client's stored options, exactly as
`Client.OpenConnection` does in `client.go` line 32. -/
def facadeOpen (cli : Client) (op : FacadeOp) (w : World) : Connection × World :=
  match op with
  | FacadeOp.openDataObject => NewConnectionW cli.Options w
  | FacadeOp.openCollection => NewConnectionW cli.Options w
  | FacadeOp.openConnection => NewConnectionW cli.Options w

/-- Run a sequence of facade calls, collecting the connection opened by each. -/
def runFacade (cli : Client) : List FacadeOp → World → List Connection × World
  | [], w => ([], w)
  | op :: ops, w =>
      let cw := facadeOpen cli op w
      let rest := runFacade cli ops cw.2
      (cw.1 :: rest.1, rest.2)

theorem facadeOpen_eq (cli : Client) (op : FacadeOp) (w : World) :
    facadeOpen cli op w = (⟨w.nextConnId, cli.Options⟩, ⟨w.nextConnId + 1⟩) := by
  cases op <;> rfl

theorem runFacade_ids (cli : Client) (ops : List FacadeOp) (w : World) :
    (runFacade cli ops w).1.map Connection.id =
      List.range' w.nextConnId ops.length := by
  induction ops generalizing w with
  | nil => rfl
  | cons op ops ih =>
    simp [runFacade, facadeOpen_eq, List.range'_succ, ih]

theorem runFacade_opts (cli : Client) (ops : List FacadeOp) (w : World) :
    ∀ c ∈ (runFacade cli ops w).1, c.opts = cli.Options := by
  induction ops generalizing w with
  | nil => intro c hc; simp [runFacade] at hc
  | cons op ops ih =>
    intro c hc
    simp only [runFacade, facadeOpen_eq, List.mem_cons] at hc
    rcases hc with rfl | hc
    · rfl
    · exact ih _ c hc

/-- C8: every facade open call creates a connection carrying the client's
stored options, one connection per call, and the connections of distinct
calls are pairwise distinct — a session is never reused across facade
calls. -/
theorem facade_fresh_session (cli : Client) (ops : List FacadeOp) (w : World) :
    (runFacade cli ops w).1.length = ops.length ∧
    (∀ c ∈ (runFacade cli ops w).1, c.opts = cli.Options) ∧
    List.Pairwise (fun a b => a.id ≠ b.id) (runFacade cli ops w).1 := by
  refine ⟨?_, runFacade_opts cli ops w, ?_⟩
  · have h := runFacade_ids cli ops w
    have := congrArg List.length h
    simpa using this
  · have h : ((runFacade cli ops w).1.map Connection.id).Nodup := by
      rw [runFacade_ids]; exact List.nodup_range' _ _
    rw [List.Nodup, List.pairwise_map] at h
    exact h

/-! Data-object I/O model.

The `DataObj` implementation file is not under `src/`; its operations are
modelled from the spec, with bytes as natural numbers below 256 kept as a
plain list (the content as stored remotely). -/

/-- A data object: its name and remote content (one entry per byte). -/
structure DataObj where
  name : String
  content : List Nat
  deriving DecidableEq, Repr

/-- The object's size in bytes, as reported from metadata. -/
def DataObj.size (obj : DataObj) : Nat := obj.content.length

/-- Modelled from the spec: `DataObj.ReadBytes(offset, length)` (`readRange`,
missing from `src/`) — reads `length` bytes starting at `offset`; when
`offset + length` exceeds the object size it truncates to the available
bytes rather than erroring, and an offset beyond the object size is an
`OutOfRange` error. -/
def DataObj.ReadBytes (obj : DataObj) (offset length : Nat) :
    Except GoError (List Nat) :=
  if obj.size < offset then
    Except.error (newError ErrorKind.OutOfRange "offset beyond object size")
  else
    Except.ok ((obj.content.drop offset).take length)

/-- Modelled from the spec: `DataObj.Read()` (missing from `src/`) — reads the
whole object. -/
def DataObj.Read (obj : DataObj) : Except GoError (List Nat) :=
  Except.ok obj.content

/-- Modelled from the spec: `DataObj.Write(bytes)` (missing from `src/`) —
overwrites the object content in place starting from offset 0, then truncates
to the new length. -/
def DataObj.Write (obj : DataObj) (b : List Nat) : DataObj :=
  { obj with content := (b ++ obj.content.drop b.length).take b.length }

/-- C4: for every valid `(offset, length)` with `length > 0`,
`offset ≤ size`, and `offset + length > size`, `ReadBytes` succeeds and
returns exactly `size - offset` bytes — it truncates instead of erroring. -/
theorem readBytes_truncates (obj : DataObj) (offset length : Nat)
    (hlen : 0 < length) (hoff : offset ≤ obj.size)
    (hover : obj.size < offset + length) :
    ∃ bs, obj.ReadBytes offset length = Except.ok bs ∧
      bs.length = obj.size - offset := by
  refine ⟨(obj.content.drop offset).take length, ?_, ?_⟩
  · simp [DataObj.ReadBytes, Nat.not_lt.mpr hoff]
  · simp only [List.length_take, List.length_drop]
    have : obj.content.length = obj.size := rfl
    omega

/-- Witness for C4: reading 10 bytes at offset 3 of a 5-byte object returns
the available 2 bytes. -/
theorem readBytes_truncates_witness :
    (0 < 10 ∧ 3 ≤ (DataObj.mk "hello.txt" [72, 101, 108, 108, 111]).size ∧
     (DataObj.mk "hello.txt" [72, 101, 108, 108, 111]).size < 3 + 10) ∧
    ∃ bs, (DataObj.mk "hello.txt" [72, 101, 108, 108, 111]).ReadBytes 3 10 =
        Except.ok bs ∧
      bs.length = (DataObj.mk "hello.txt" [72, 101, 108, 108, 111]).size - 3 :=
  ⟨⟨by decide, by decide, by decide⟩,
   readBytes_truncates (DataObj.mk "hello.txt" [72, 101, 108, 108, 111]) 3 10
     (by decide) (by decide) (by decide)⟩

/-- C6: writing a non-empty byte sequence (overwrite from offset 0, truncated
to the new length) and then reading the whole object returns exactly the
written bytes. -/
theorem write_then_read_roundtrip (obj : DataObj) (b : List Nat)
    (hb : b ≠ []) :
    (obj.Write b).Read = Except.ok b := by
  simp [DataObj.Write, DataObj.Read, List.take_left]

/-- Witness for C6 on a concrete object and byte sequence. -/
theorem write_then_read_roundtrip_witness :
    ([9, 8, 7] : List Nat) ≠ [] ∧
    ((DataObj.mk "hello.txt" [72, 101, 108, 108, 111]).Write [9, 8, 7]).Read =
      Except.ok [9, 8, 7] :=
  ⟨by decide,
   write_then_read_roundtrip (DataObj.mk "hello.txt" [72, 101, 108, 108, 111])
     [9, 8, 7] (by decide)⟩

/-- Modelled from the spec: the sequence of visitor calls performed by
`DataObj.ReadChunk` (missing from `src/`) over remaining content `l`,
starting at read offset `off` with chunk size `k`: each call receives the
next at-most-`k` bytes, and reading proceeds at offsets `off`, `off + k`, …
until the content is exhausted.  The guard chunk size 0 performs no calls. -/
def readChunkCalls : Nat → Nat → List Nat → List (Nat × List Nat)
  | _, _, [] => []
  | 0, _, _ :: _ => []
  | k + 1, off, a :: l =>
      (off, (a :: l).take (k + 1)) ::
        readChunkCalls (k + 1) (off + (k + 1)) ((a :: l).drop (k + 1))
termination_by k _ l => l.length
decreasing_by simp; omega

/-- Modelled from the spec: `DataObj.ReadChunk(size, callback)` — streams the
object in chunks of at most `size` bytes from offset 0, invoking the callback
once per chunk; the result is the trace of callback invocations, each paired
with the offset it was read from. -/
def DataObj.ReadChunk (obj : DataObj) (size : Nat) : List (Nat × List Nat) :=
  readChunkCalls size 0 obj.content

theorem readChunkCalls_nil (k off : Nat) : readChunkCalls k off [] = [] := by
  cases k <;> simp [readChunkCalls]

theorem readChunkCalls_cons (k off : Nat) (a : Nat) (l : List Nat) :
    readChunkCalls (k + 1) off (a :: l) =
      (off, (a :: l).take (k + 1)) ::
        readChunkCalls (k + 1) (off + (k + 1)) ((a :: l).drop (k + 1)) := by
  simp [readChunkCalls]

theorem readChunkCalls_ne_nil (k off : Nat) (a : Nat) (l : List Nat) :
    readChunkCalls (k + 1) off (a :: l) ≠ [] := by
  rw [readChunkCalls_cons]; simp

/-- The number of chunks is the byte count divided by the chunk size, rounded
up. -/
theorem readChunkCalls_length (k : Nat) :
    ∀ n (l : List Nat) (off : Nat), l.length = n →
      (readChunkCalls (k + 1) off l).length = (n + k) / (k + 1) := by
  intro n
  induction n using Nat.strong_induction_on with
  | _ n ih =>
    intro l off hl
    match l with
    | [] =>
      simp only [List.length_nil] at hl
      subst hl
      rw [readChunkCalls_nil]
      simp [Nat.div_eq_of_lt]
    | a :: t =>
      simp only [List.length_cons] at hl
      rw [readChunkCalls_cons]
      have hdrop : ((a :: t).drop (k + 1)).length = n - (k + 1) := by
        simp only [List.length_drop, List.length_cons]
        omega
      have hlt : n - (k + 1) < n := by omega
      rw [List.length_cons, ih (n - (k + 1)) hlt _ _ hdrop]
      rcases le_or_lt n (k + 1) with h | h
      · have h0 : n - (k + 1) = 0 := by omega
        rw [h0]
        have e1 : (0 + k) / (k + 1) = 0 := Nat.div_eq_of_lt (by omega)
        have e2 : (n + k) / (k + 1) = 1 := Nat.div_eq_of_lt_le (by omega) (by omega)
        rw [e1, e2]
      · have h3 : n + k = (n - 1) + (k + 1) := by omega
        have h4 : n - (k + 1) + k = n - 1 := by omega
        rw [h3, h4, Nat.add_div_right _ (by omega)]

/-- Every chunk is non-empty and holds at most `k + 1` bytes. -/
theorem readChunkCalls_sizes (k : Nat) :
    ∀ n (l : List Nat) (off : Nat), l.length = n →
      ∀ p ∈ readChunkCalls (k + 1) off l,
        0 < p.2.length ∧ p.2.length ≤ k + 1 := by
  intro n
  induction n using Nat.strong_induction_on with
  | _ n ih =>
    intro l off hl p hp
    match l with
    | [] => rw [readChunkCalls_nil] at hp; cases hp
    | a :: t =>
      simp only [List.length_cons] at hl
      rw [readChunkCalls_cons, List.mem_cons] at hp
      rcases hp with rfl | hp
      · simp only [List.length_take, List.length_cons]
        omega
      · have hdrop : ((a :: t).drop (k + 1)).length = n - (k + 1) := by
          simp only [List.length_drop, List.length_cons]; omega
        exact ih (n - (k + 1)) (by omega) _ _ hdrop p hp

/-- Every chunk except possibly the last holds exactly `k + 1` bytes. -/
theorem readChunkCalls_full_chunks (k : Nat) :
    ∀ n (l : List Nat) (off : Nat), l.length = n →
      ∀ p ∈ (readChunkCalls (k + 1) off l).dropLast, p.2.length = k + 1 := by
  intro n
  induction n using Nat.strong_induction_on with
  | _ n ih =>
    intro l off hl p hp
    match l with
    | [] => rw [readChunkCalls_nil] at hp; cases hp
    | a :: t =>
      simp only [List.length_cons] at hl
      rw [readChunkCalls_cons] at hp
      have hdrop : ((a :: t).drop (k + 1)).length = n - (k + 1) := by
        simp only [List.length_drop, List.length_cons]; omega
      cases hrest : readChunkCalls (k + 1) (off + (k + 1)) ((a :: t).drop (k + 1)) with
      | nil => rw [hrest] at hp; simp at hp
      | cons r rs =>
        rw [hrest, List.dropLast_cons₂, List.mem_cons] at hp
        rcases hp with rfl | hp
        · have hne : (a :: t).drop (k + 1) ≠ [] := by
            intro hcon
            rw [hcon, readChunkCalls_nil] at hrest
            cases hrest
          have hlen : k + 1 < n := by
            rcases le_or_lt n (k + 1) with h | h
            · exfalso
              apply hne
              apply List.eq_nil_of_length_eq_zero
              omega
            · exact h
          simp only [List.length_take, List.length_cons]
          omega
        · rw [← hrest] at hp
          exact ih (n - (k + 1)) (by omega) _ _ hdrop p hp

/-- Every visited offset is at least the starting offset. -/
theorem readChunkCalls_offset_le (k : Nat) :
    ∀ n (l : List Nat) (off : Nat), l.length = n →
      ∀ p ∈ readChunkCalls (k + 1) off l, off ≤ p.1 := by
  intro n
  induction n using Nat.strong_induction_on with
  | _ n ih =>
    intro l off hl p hp
    match l with
    | [] => rw [readChunkCalls_nil] at hp; cases hp
    | a :: t =>
      simp only [List.length_cons] at hl
      rw [readChunkCalls_cons, List.mem_cons] at hp
      rcases hp with rfl | hp
      · exact Nat.le_refl _
      · have hdrop : ((a :: t).drop (k + 1)).length = n - (k + 1) := by
          simp only [List.length_drop, List.length_cons]; omega
        have := ih (n - (k + 1)) (by omega) _ _ hdrop p hp
        omega

/-- Visitor calls occur in strictly increasing offset order. -/
theorem readChunkCalls_increasing (k : Nat) :
    ∀ n (l : List Nat) (off : Nat), l.length = n →
      List.Chain' (fun p q => p.1 < q.1) (readChunkCalls (k + 1) off l) := by
  intro n
  induction n using Nat.strong_induction_on with
  | _ n ih =>
    intro l off hl
    match l with
    | [] => rw [readChunkCalls_nil]; exact List.chain'_nil
    | a :: t =>
      simp only [List.length_cons] at hl
      rw [readChunkCalls_cons]
      have hdrop : ((a :: t).drop (k + 1)).length = n - (k + 1) := by
        simp only [List.length_drop, List.length_cons]; omega
      rw [List.chain'_cons']
      constructor
      · intro q hq
        have hmem : q ∈ readChunkCalls (k + 1) (off + (k + 1)) ((a :: t).drop (k + 1)) :=
          List.mem_of_mem_head? hq
        have := readChunkCalls_offset_le k (n - (k + 1)) _ _ hdrop q hmem
        omega
      · exact ih (n - (k + 1)) (by omega) _ _ hdrop

/-- C5: for every chunk size `c > 0`, `ReadChunk` invokes the visitor exactly
`⌈size / c⌉` times — once per chunk — with every chunk except possibly the
last of size exactly `c`, every chunk non-empty and of size at most `c`, and
the calls in strictly increasing offset order. -/
theorem readChunk_spec (obj : DataObj) (c : Nat) (hc : 0 < c) :
    (obj.ReadChunk c).length = (obj.size + c - 1) / c ∧
    (∀ p ∈ (obj.ReadChunk c).dropLast, p.2.length = c) ∧
    (∀ p ∈ obj.ReadChunk c, 0 < p.2.length ∧ p.2.length ≤ c) ∧
    List.Chain' (fun p q => p.1 < q.1) (obj.ReadChunk c) := by
  obtain ⟨k, rfl⟩ : ∃ k, c = k + 1 := ⟨c - 1, by omega⟩
  refine ⟨?_, ?_, ?_, ?_⟩
  · have h := readChunkCalls_length k obj.content.length obj.content 0 rfl
    have he : obj.size + (k + 1) - 1 = obj.content.length + k := by
      simp [DataObj.size]
    rw [DataObj.ReadChunk, h, he]
  · exact readChunkCalls_full_chunks k obj.content.length obj.content 0 rfl
  · exact readChunkCalls_sizes k obj.content.length obj.content 0 rfl
  · exact readChunkCalls_increasing k obj.content.length obj.content 0 rfl

/-- Witness for C5: a 5-byte object read in chunks of 2 yields 3 visitor
calls at offsets 0, 2, 4 with chunk sizes 2, 2, 1. -/
theorem readChunk_spec_witness :
    0 < 2 ∧
    (((DataObj.mk "hello.txt" [72, 101, 108, 108, 111]).ReadChunk 2).length =
        ((DataObj.mk "hello.txt" [72, 101, 108, 108, 111]).size + 2 - 1) / 2 ∧
     (∀ p ∈ ((DataObj.mk "hello.txt" [72, 101, 108, 108, 111]).ReadChunk 2).dropLast,
        p.2.length = 2) ∧
     (∀ p ∈ (DataObj.mk "hello.txt" [72, 101, 108, 108, 111]).ReadChunk 2,
        0 < p.2.length ∧ p.2.length ≤ 2) ∧
     List.Chain' (fun p q => p.1 < q.1)
       ((DataObj.mk "hello.txt" [72, 101, 108, 108, 111]).ReadChunk 2)) :=
  ⟨by decide,
   readChunk_spec (DataObj.mk "hello.txt" [72, 101, 108, 108, 111]) 2 (by decide)⟩

/-! Metadata (AVU) model. -/

/-- An attribute-value-unit metadata triple. -/
structure Meta where
  Attribute : String
  Value : String
  Units : String
  deriving DecidableEq, Repr

/-- A node (collection or data object) carrying its attached AVUs. -/
structure MetaNode where
  path : String
  metas : List Meta
  deriving DecidableEq, Repr

/-- How many AVUs with the given (attribute, value) pair the node carries. -/
def MetaNode.countAVU (node : MetaNode) (a v : String) : Nat :=
  node.metas.countP (fun x => x.Attribute == a && x.Value == v)

/-- Modelled from the spec: `AddMeta` (missing from `src/`) — attaches a new
AVU to the node; per the documentation, values of AVUs sharing an attribute
must be unique, so an (attribute, value) pair already attached is rejected
with `DuplicateAVU` and the node is left unchanged. -/
def MetaNode.AddMeta (node : MetaNode) (m : Meta) :
    Except GoError (Meta × MetaNode) :=
  if node.metas.any (fun x => x.Attribute == m.Attribute && x.Value == m.Value) then
    Except.error (newError ErrorKind.DuplicateAVU "AVU values must be unique")
  else
    Except.ok (m, { node with metas := node.metas ++ [m] })

/-- C7: adding an AVU whose (attribute, value) pair is already attached to the
node either fails with `DuplicateAVU` or leaves the node's AVUs unchanged — it
never creates a second copy of the pair. -/
theorem addMeta_no_duplicate (node : MetaNode) (m : Meta)
    (hdup : 0 < node.countAVU m.Attribute m.Value) :
    (∃ e, node.AddMeta m = Except.error e ∧ e.kind = ErrorKind.DuplicateAVU) ∨
    (∃ r, node.AddMeta m = Except.ok r ∧
      r.2.countAVU m.Attribute m.Value = node.countAVU m.Attribute m.Value) := by
  left
  refine ⟨newError ErrorKind.DuplicateAVU "AVU values must be unique", ?_, rfl⟩
  rw [MetaNode.countAVU, List.countP_pos_iff] at hdup
  obtain ⟨x, hx, hpx⟩ := hdup
  have hany : node.metas.any
      (fun x => x.Attribute == m.Attribute && x.Value == m.Value) = true :=
    List.any_eq_true.mpr ⟨x, hx, hpx⟩
  rw [MetaNode.AddMeta, if_pos hany]

/-- Witness for C7: re-adding the wordCount AVU from the usage examples is
rejected with `DuplicateAVU`. -/
theorem addMeta_no_duplicate_witness :
    0 < (MetaNode.mk "/tempZone/home/rods/hello.txt"
          [⟨"wordCount", "2", "int"⟩]).countAVU "wordCount" "2" ∧
    ((∃ e, (MetaNode.mk "/tempZone/home/rods/hello.txt"
          [⟨"wordCount", "2", "int"⟩]).AddMeta ⟨"wordCount", "2", "int"⟩ =
          Except.error e ∧ e.kind = ErrorKind.DuplicateAVU) ∨
     (∃ r, (MetaNode.mk "/tempZone/home/rods/hello.txt"
          [⟨"wordCount", "2", "int"⟩]).AddMeta ⟨"wordCount", "2", "int"⟩ =
          Except.ok r ∧
       r.2.countAVU "wordCount" "2" =
         (MetaNode.mk "/tempZone/home/rods/hello.txt"
           [⟨"wordCount", "2", "int"⟩]).countAVU "wordCount" "2")) :=
  ⟨by decide,
   addMeta_no_duplicate (MetaNode.mk "/tempZone/home/rods/hello.txt"
     [⟨"wordCount", "2", "int"⟩]) ⟨"wordCount", "2", "int"⟩ (by decide)⟩

end GoRods
